import Mathlib

/-!
Verification of simple-trpc-openapi (src/src/index.ts, src/src/utility.ts).

The development shallowly embeds the TypeScript sources:

* zod schemas become the inductive `ZodSchema` (discriminated by
  `ZodSchema.typeName`, mirroring `_def.typeName : z.ZodFirstPartyTypeKind`);
  the per-schema zod-openapi metadata read by the document builder
  (`_def.zodOpenApi?.openapi`, fields `title` / `contentMediaType`) is carried
  by `AnnSchema`.
* JavaScript runtime values reachable in the coercion code become `JsValue`.
  Platform primitives used by the source (`JSON.parse`, `JSON.stringify`,
  `Number(...)`, `String.prototype.toLowerCase`, WHATWG `URL`) are not
  repository code; they are modelled here as executable Lean functions over
  the value/grammar fragment the repository exercises (decimal numerals
  without exponents; ASCII lower-casing; absolute http(s) URLs).
* JavaScript objects used as string-keyed dictionaries (`paths`, `schemas`,
  `openApiToTRPCPaths`, the `data` record of `preprocessFormData`) become
  insertion-ordered association lists (`getA` / `setA` / `set2` / `lookup2`)
  for their own properties; plain assignment always creates/overwrites an
  own property and is modelled by `setA`.  Property reads on object-literal
  records with externally supplied keys additionally see the prototype
  chain: a key naming one of the twelve `Object.prototype` members
  (`isProtoKey`) yields an inherited, defined, truthy member that is neither
  a schema, a string, nor an array.  The three such reads in the source —
  `key in schema.shape` (index.ts:245), `data[key] !== undefined`
  (index.ts:231) and `openApiToTRPCPaths[url.pathname]?.[method]`
  (index.ts:263) — are modelled with the inherited case made explicit in
  `processEntries`, `coerceFuel` and `simpleTRPCOpenApiRequestHandler`.
* `preprocessFormData`'s inner `coerceFormValue` recurses through
  `unwrap(schema._def.type)`, which is not a structural subterm; it is
  embedded with an explicit fuel argument (`coerceFuel`).  The wrapper
  `coerceFormValue` supplies `ZodSchema.size schema + 1` fuel, which is
  always sufficient: every recursive call strictly decreases the size
  because `unwrap` never enlarges a schema (`unwrap_size_le`,
  `coerceFuel_fuel_irrelevant`).
* `createTRPCOpenApiDoc` is embedded up to (but not including) the external
  `createDocument` assembler from zod-openapi: it produces the accumulated
  zod-level path table, component-schema table and reverse lookup table.
  The post-assembly nullable-union sanitizer pass (lines 161–197 of
  index.ts) operates on the OpenAPI-level document produced by that external
  assembler, so it is embedded separately over an OpenAPI-level document
  model (`SchemaNode`, `PathItem`, `sanitizePaths`).
-/

namespace SimpleTRPCOpenApi

/-! ## Zod schema model (utility.ts) -/

/-- The subset of `z.ZodFirstPartyTypeKind` discriminators that the sources
inspect. -/
inductive ZodTypeKind where
  | ZodString
  | ZodNumber
  | ZodBoolean
  | ZodNull
  | ZodVoid
  | ZodObject
  | ZodArray
  | ZodOptional
  | ZodNullable
  | ZodEffects
  deriving DecidableEq, Repr

/-- Zod schema values, as a closed discriminated union: leaf scalars, object
shapes (`.shape` is an ordered property map), arrays (with element schema
`_def.type`), and the three single-inner wrapper kinds unwrapped by
`utility.ts` (`ZodOptional`, `ZodNullable`, `ZodEffects`). -/
inductive ZodSchema where
  | zString
  | zNumber
  | zBoolean
  | zNull
  | zVoid
  | zObject (shape : List (String × ZodSchema))
  | zArray (elem : ZodSchema)
  | zOptional (inner : ZodSchema)
  | zNullable (inner : ZodSchema)
  | zEffects (inner : ZodSchema)
  deriving Repr

/-- `getZodType` of utility.ts: the `_def.typeName` discriminator. -/
def ZodSchema.typeName : ZodSchema → ZodTypeKind
  | .zString => .ZodString
  | .zNumber => .ZodNumber
  | .zBoolean => .ZodBoolean
  | .zNull => .ZodNull
  | .zVoid => .ZodVoid
  | .zObject _ => .ZodObject
  | .zArray _ => .ZodArray
  | .zOptional _ => .ZodOptional
  | .zNullable _ => .ZodNullable
  | .zEffects _ => .ZodEffects

/-- `unwrap` of utility.ts: recursively strip `ZodOptional` / `ZodNullable`
(via `.unwrap()`) and `ZodEffects` (via `._def.schema`); any other schema is
returned unchanged. -/
def unwrap : ZodSchema → ZodSchema
  | .zOptional inner => unwrap inner
  | .zNullable inner => unwrap inner
  | .zEffects inner => unwrap inner
  | s => s

/-- Nesting depth of the wrapper/array spine of a schema (object shapes are
never recursed into along that spine).  Used as the fuel bound for the
embedded `coerceFormValue` recursion. -/
def ZodSchema.size : ZodSchema → Nat
  | .zArray e => e.size + 1
  | .zOptional e => e.size + 1
  | .zNullable e => e.size + 1
  | .zEffects e => e.size + 1
  | _ => 1

/-- The three wrapper kinds stripped by `unwrap`. -/
inductive WrapperKind where
  | optional
  | nullable
  | effects
  deriving DecidableEq, Repr

/-- Wrap a schema in one wrapper layer. -/
def applyWrapper : WrapperKind → ZodSchema → ZodSchema
  | .optional, s => .zOptional s
  | .nullable, s => .zNullable s
  | .effects, s => .zEffects s

/-- Wrap a schema in a finite chain of wrapper layers (outermost first). -/
def wrapChain : List WrapperKind → ZodSchema → ZodSchema
  | [], s => s
  | w :: ws, s => applyWrapper w (wrapChain ws s)

/-- Whether a schema's discriminator is one of the three wrapper kinds. -/
def ZodSchema.isWrapperKind (s : ZodSchema) : Bool :=
  match s with
  | .zOptional _ => true
  | .zNullable _ => true
  | .zEffects _ => true
  | _ => false

/-- The zod-openapi metadata object `._def.zodOpenApi?.openapi` read by the
document builder: an optional component title and an optional content media
type. -/
structure ZodOpenApiInfo where
  title : Option String := none
  contentMediaType : Option String := none
  deriving Repr

/-- A zod schema together with its top-level zod-openapi metadata, as read at
lines 55–56 of index.ts. -/
structure AnnSchema where
  schema : ZodSchema
  zodOpenApi : Option ZodOpenApiInfo := none
  deriving Repr

/-- `processProcedureSchema` of utility.ts: a `ZodVoid`-typed (or absent)
schema is treated as "no schema"; anything else passes through unchanged. -/
def processProcedureSchema : Option AnnSchema → Option AnnSchema
  | some a => match a.schema.typeName with
    | .ZodVoid => none
    | _ => some a
  | none => none

/-! ## String-keyed dictionaries (JS objects) -/

/-- Lookup in an insertion-ordered association list; mirrors JS property
read `o[k]` (`none` plays the role of `undefined`). -/
def getA {α : Type} : List (String × α) → String → Option α
  | [], _ => none
  | (k', v') :: rest, k => if k' = k then some v' else getA rest k

/-- Assignment `o[k] = v` on an insertion-ordered association list: update
the existing entry in place, or append a new one. -/
def setA {α : Type} : List (String × α) → String → α → List (String × α)
  | [], k, v => [(k, v)]
  | (k', v') :: rest, k, v =>
    if k' = k then (k, v) :: rest else (k', v') :: setA rest k v

/-- Two-level read `o[k1]?.[k2]`. -/
def lookup2 {α : Type} (t : List (String × List (String × α))) (k1 k2 : String) :
    Option α :=
  match getA t k1 with
  | none => none
  | some inner => getA inner k2

/-- Two-level write `o[k1] ||= \x7b\x7d; o[k1][k2] = v`. -/
def set2 {α : Type} (t : List (String × List (String × α))) (k1 k2 : String)
    (v : α) : List (String × List (String × α)) :=
  setA t k1 (setA ((getA t k1).getD []) k2 v)

/-! ## JavaScript runtime values and platform primitives -/

/-- JavaScript values reachable in the form/query coercion code: strings,
numbers (with `NaN` as a distinguished constructor), booleans, `null`,
arrays and plain objects. -/
inductive JsValue where
  | vStr (s : String)
  | vNum (q : ℚ)
  | vNaN
  | vBool (b : Bool)
  | vNull
  | vArr (elems : List JsValue)
  | vObj (fields : List (String × JsValue))
  deriving Repr

/-- Whether a value is an array (`Array.isArray`). -/
def JsValue.isArr : JsValue → Bool
  | .vArr _ => true
  | _ => false

/-- Strict equality test `value === "true"`. -/
def JsValue.isStrTrue : JsValue → Bool
  | .vStr s => s = "true"
  | _ => false

/-- Strict equality test `value === true`. -/
def JsValue.isBoolTrue : JsValue → Bool
  | .vBool b => b
  | _ => false

/-- The opening-brace character, written by code point to keep it out of
string literals. -/
def lbrace : Char := Char.ofNat 123

/-- The closing-brace character. -/
def rbrace : Char := Char.ofNat 125

/-- ASCII decimal digit test. -/
def isDigitChar (c : Char) : Bool := '0' ≤ c ∧ c ≤ '9'

/-- Accumulate a digit run into a natural number (most significant first). -/
def digitsToNat : List Char → Nat → Nat
  | [], acc => acc
  | c :: rest, acc => digitsToNat rest (acc * 10 + (c.toNat - 48))

/-- Parse a digit run; `none` if the input does not start with a digit.
Returns the parsed run and the remaining characters. -/
def takeDigits (cs : List Char) : Option (List Char × List Char) :=
  let run := cs.takeWhile isDigitChar
  if run.isEmpty then none else some (run, cs.drop run.length)

/-- Parse an unsigned decimal numeral with optional fractional part
(`digits` or `digits.digits`) into a rational.  Exponent forms are outside
the grammar fragment this repository exercises and are not modelled. -/
def parseUnsignedDec (cs : List Char) : Option (ℚ × List Char) :=
  match takeDigits cs with
  | none => none
  | some (intRun, rest) =>
    match rest with
    | '.' :: rest2 =>
      match takeDigits rest2 with
      | none => none
      | some (fracRun, rest3) =>
        some (mkRat (digitsToNat intRun 0 * 10 ^ fracRun.length +
          digitsToNat fracRun 0) (10 ^ fracRun.length), rest3)
    | _ => some (mkRat (digitsToNat intRun 0) 1, rest)

/-- JSON whitespace skipping. -/
def skipWs (cs : List Char) : List Char :=
  cs.dropWhile fun c => c = ' ' ∨ c = '\t' ∨ c = '\n' ∨ c = '\r'

/-- Parse the body of a JSON string literal (the opening quote already
consumed), handling the simple escapes; `none` on any other escape. -/
def parseJsonStrBody : List Char → Option (List Char × List Char)
  | [] => none
  | '"' :: rest => some ([], rest)
  | '\\' :: e :: rest =>
    match e with
    | '"' => (parseJsonStrBody rest).map fun p => ('"' :: p.1, p.2)
    | '\\' => (parseJsonStrBody rest).map fun p => ('\\' :: p.1, p.2)
    | '/' => (parseJsonStrBody rest).map fun p => ('/' :: p.1, p.2)
    | 'n' => (parseJsonStrBody rest).map fun p => ('\n' :: p.1, p.2)
    | 't' => (parseJsonStrBody rest).map fun p => ('\t' :: p.1, p.2)
    | 'r' => (parseJsonStrBody rest).map fun p => ('\r' :: p.1, p.2)
    | _ => none
  | c :: rest => (parseJsonStrBody rest).map fun p => (c :: p.1, p.2)

mutual

/-- Recursive-descent JSON value parser with explicit fuel (the callers
supply input length plus one, which bounds the recursion depth since every
descent consumes at least one character).  Models the platform `JSON.parse`
on the grammar fragment this repository exercises. -/
def parseJsonV : Nat → List Char → Option (JsValue × List Char)
  | 0, _ => none
  | fuel + 1, cs =>
    match skipWs cs with
    | 'n' :: 'u' :: 'l' :: 'l' :: rest => some (.vNull, rest)
    | 't' :: 'r' :: 'u' :: 'e' :: rest => some (.vBool true, rest)
    | 'f' :: 'a' :: 'l' :: 's' :: 'e' :: rest => some (.vBool false, rest)
    | '"' :: rest =>
      (parseJsonStrBody rest).map fun p => (.vStr (String.mk p.1), p.2)
    | '[' :: rest =>
      match skipWs rest with
      | ']' :: rest2 => some (.vArr [], rest2)
      | rest2 =>
        match parseJsonElems fuel rest2 with
        | some (elems, rest3) => some (.vArr elems, rest3)
        | none => none
    | '-' :: rest =>
      (parseUnsignedDec rest).map fun p => (.vNum (-p.1), p.2)
    | cs2 =>
      if cs2.head? = some lbrace then
        match skipWs (cs2.drop 1) with
        | c :: rest2 =>
          if c = rbrace then some (.vObj [], rest2)
          else
            match parseJsonFields fuel (c :: rest2) with
            | some (fields, rest3) => some (.vObj fields, rest3)
            | none => none
        | [] => none
      else
        (parseUnsignedDec cs2).map fun p => (.vNum p.1, p.2)

/-- Parse one-or-more comma-separated JSON array elements, then the closing
bracket. -/
def parseJsonElems : Nat → List Char → Option (List JsValue × List Char)
  | 0, _ => none
  | fuel + 1, cs =>
    match parseJsonV fuel cs with
    | none => none
    | some (v, rest) =>
      match skipWs rest with
      | ',' :: rest2 =>
        match parseJsonElems fuel rest2 with
        | some (vs, rest3) => some (v :: vs, rest3)
        | none => none
      | ']' :: rest2 => some ([v], rest2)
      | _ => none

/-- Parse one-or-more comma-separated JSON object members, then the closing
brace. -/
def parseJsonFields : Nat → List Char → Option (List (String × JsValue) × List Char)
  | 0, _ => none
  | fuel + 1, cs =>
    match skipWs cs with
    | '"' :: rest =>
      match parseJsonStrBody rest with
      | none => none
      | some (keyChars, rest2) =>
        match skipWs rest2 with
        | ':' :: rest3 =>
          match parseJsonV fuel rest3 with
          | none => none
          | some (v, rest4) =>
            match skipWs rest4 with
            | ',' :: rest5 =>
              match parseJsonFields fuel rest5 with
              | some (fields, rest6) =>
                some ((String.mk keyChars, v) :: fields, rest6)
              | none => none
            | c :: rest5 =>
              if c = rbrace then some ([(String.mk keyChars, v)], rest5)
              else none
            | [] => none
        | _ => none
    | _ => none

end

/-- Platform `JSON.parse` on a string: parse one value and require only
whitespace to remain; `none` models a thrown `SyntaxError`. -/
def jsonParse (s : String) : Option JsValue :=
  match parseJsonV (s.length + 1) s.data with
  | some (v, rest) => if (skipWs rest).isEmpty then some v else none
  | none => none

/-- Platform `Number(...)` conversion of a string: trim whitespace, empty
becomes `0`, otherwise an optionally signed decimal numeral; anything else
is `NaN` (`none`). -/
def parseNumberText (s : String) : Option ℚ :=
  let t := skipWs s.data
  if t.isEmpty then some 0
  else
    let (neg, t2) : Bool × List Char :=
      match t with
      | '-' :: rest => (true, rest)
      | '+' :: rest => (false, rest)
      | _ => (false, t)
    match parseUnsignedDec t2 with
    | some (q, rest) =>
      if (skipWs rest).isEmpty then some (if neg then -q else q) else none
    | none => none

/-- Platform `Number(...)` coercion, modelled on the value shapes reachable
from `coerceFormValue` (numbers, booleans, `null`, strings, and parsed JSON
composites; the array/object cases approximate the `ToPrimitive` path on the
shapes exercised here). -/
def jsToNumber : JsValue → JsValue
  | .vNum q => .vNum q
  | .vNaN => .vNaN
  | .vBool b => .vNum (if b then 1 else 0)
  | .vNull => .vNum 0
  | .vStr s =>
    match parseNumberText s with
    | some q => .vNum q
    | none => .vNaN
  | .vArr [] => .vNum 0
  | .vArr [.vNum q] => .vNum q
  | .vArr [.vStr s] =>
    match parseNumberText s with
    | some q => .vNum q
    | none => .vNaN
  | .vArr _ => .vNaN
  | .vObj _ => .vNaN

/-- Escape a character for a JSON string literal. -/
def jsonEscapeChar (c : Char) : List Char :=
  if c = '"' then ['\\', '"']
  else if c = '\\' then ['\\', '\\']
  else if c = '\n' then ['\\', 'n']
  else if c = '\t' then ['\\', 't']
  else if c = '\r' then ['\\', 'r']
  else [c]

/-- Render a rational as JSON text: integral values print as integers;
non-integral values are outside the fragment the claims exercise and print
as numerator-slash-denominator. -/
def ratToJsonText (q : ℚ) : String :=
  if q.den = 1 then toString q.num
  else toString q.num ++ "/" ++ toString q.den

mutual

/-- Platform `JSON.stringify` on the modelled values (`NaN` serializes as
`null`, as in JavaScript). -/
def jsonStringify : JsValue → String
  | .vStr s => String.mk ('"' :: (s.data.flatMap jsonEscapeChar) ++ ['"'])
  | .vNum q => ratToJsonText q
  | .vNaN => "null"
  | .vBool b => if b then "true" else "false"
  | .vNull => "null"
  | .vArr elems => "[" ++ jsonStringifyElems elems ++ "]"
  | .vObj fields =>
    String.singleton lbrace ++ jsonStringifyFields fields ++ String.singleton rbrace

/-- Comma-separated serialization of array elements. -/
def jsonStringifyElems : List JsValue → String
  | [] => ""
  | [v] => jsonStringify v
  | v :: rest => jsonStringify v ++ "," ++ jsonStringifyElems rest

/-- Comma-separated serialization of object members. -/
def jsonStringifyFields : List (String × JsValue) → String
  | [] => ""
  | [(k, v)] => jsonStringify (.vStr k) ++ ":" ++ jsonStringify v
  | (k, v) :: rest =>
    jsonStringify (.vStr k) ++ ":" ++ jsonStringify v ++ "," ++
      jsonStringifyFields rest

end

/-! ## Form/query coercion (preprocessFormData, index.ts lines 205–254) -/

/-- The mutable `data` record accumulated by `preprocessFormData`: a JS
object, i.e. an insertion-ordered string-keyed dictionary. -/
abbrev FormState := List (String × JsValue)

/-- Whether a string names one of the twelve own members of
`Object.prototype`, i.e. the keys at which a property read on a plain
object literal with no own entry still yields a defined (truthy, non-string,
non-array, non-schema) inherited value, and at which the `in` operator
reports presence. -/
def isProtoKey : String → Bool
  | "constructor" => true
  | "toString" => true
  | "toLocaleString" => true
  | "valueOf" => true
  | "hasOwnProperty" => true
  | "isPrototypeOf" => true
  | "propertyIsEnumerable" => true
  | "__proto__" => true
  | "__defineGetter__" => true
  | "__defineSetter__" => true
  | "__lookupGetter__" => true
  | "__lookupSetter__" => true
  | _ => false

/-- The first step of `coerceFormValue`: when the value is a string, attempt
`JSON.parse` and keep the parsed value on success, the raw string on failure
(the `try/catch` with an empty catch block). -/
def parseIfString : JsValue → JsValue
  | .vStr s =>
    match jsonParse s with
    | some parsed => parsed
    | none => .vStr s
  | v => v

/-- Push the recursively coerced element onto the array at `data2[k]` and
return the whole array (the `(data[key] as unknown[]).push(...)` step;
`data[k]` is an array in every state the recursion can produce, so the
fallthrough arm is unreachable and re-raises the array-shape error). -/
def arrayPushResult (k : String) (res : Except String (JsValue × FormState)) :
    Except String (JsValue × FormState) :=
  match res with
  | .error e => .error e
  | .ok (elemVal, data2) =>
    match getA data2 k with
    | some (.vArr xs) =>
      .ok (.vArr (xs ++ [elemVal]), setA data2 k (.vArr (xs ++ [elemVal])))
    | _ => .error ("Expected array for key " ++ k)

/-- The inner `coerceFormValue` closure of `preprocessFormData`, with an
explicit fuel argument standing for the JS call stack.  The recursive call
at line 236 passes `unwrap(schema._def.type)`, which is not a structural
subterm of `schema`; fuel `schema.size + 1` (as supplied by
`coerceFormValue`) is always sufficient because `unwrap` never enlarges a
schema.  A thrown `Error` is an `Except.error` carrying its message. -/
def coerceFuel : Nat → Option String → JsValue → ZodSchema → FormState →
    Except String (JsValue × FormState)
  | 0, _, _, _, _ => .error "Nested arrays are not supported"
  | fuel + 1, key, value, schema, data =>
    let v := parseIfString value
    if schema.typeName = .ZodNumber then
      .ok (jsToNumber v, data)
    else if schema.typeName = .ZodBoolean then
      .ok (.vBool (v.isStrTrue || v.isBoolTrue), data)
    else
      match schema with
      | .zArray elem =>
        match key with
        | none => .error "Nested arrays are not supported"
        | some k =>
          match getA data k with
          | some existing =>
            if existing.isArr then
              arrayPushResult k (coerceFuel fuel (some k) v (unwrap elem) data)
            else .error ("Expected array for key " ++ k)
          | none =>
            if isProtoKey k then
              -- `data[key] !== undefined` (line 231) is true even with no own
              -- entry: the read resolves through the prototype chain to an
              -- inherited member, which is not an array, so the source throws
              .error ("Expected array for key " ++ k)
            else
              arrayPushResult k
                (coerceFuel fuel (some k) v (unwrap elem) (setA data k (.vArr [])))
      | _ => .ok (v, data)

/-- `coerceFormValue` at its source type: the fuel is an embedding artifact,
fixed at `schema.size + 1`, which is never exhausted (every recursive call
strictly decreases `ZodSchema.size`, see `coerceFuel_fuel_irrelevant`). -/
def coerceFormValue (key : Option String) (value : JsValue) (schema : ZodSchema)
    (data : FormState) : Except String (JsValue × FormState) :=
  coerceFuel (schema.size + 1) key value schema data

/-- The `formData.forEach` loop of `preprocessFormData`: for each (key,
value) pair in source order, skip keys for which `key in schema.shape` is
false, otherwise coerce against the unwrapped property schema and assign
`data[key]` to the result.  The `in` operator also reports keys inherited
from `Object.prototype`: for such a key with no own shape entry the source
does not skip — `schema.shape[key]` yields the inherited member, which has
no `_def` (so `unwrap` returns it unchanged, every wrapper test reading
`undefined`), and `coerceFormValue`'s first discriminator access
`schema._def.typeName` (line 218) throws a TypeError.  A throw inside the
callback propagates. -/
def processEntries : List (String × String) → List (String × ZodSchema) →
    FormState → Except String FormState
  | [], _, data => .ok data
  | (k, value) :: rest, shape, data =>
    match getA shape k with
    | none =>
      if isProtoKey k then .error "TypeError: cannot read typeName of undefined"
      else processEntries rest shape data
    | some propSchema =>
      match coerceFormValue (some k) (.vStr value) (unwrap propSchema) data with
      | .error e => .error e
      | .ok (v, data1) => processEntries rest shape (setA data1 k v)

/-- `preprocessFormData` of index.ts: iterate the form/query source against
an object schema's shape.  A non-object schema has no `.shape`, so the first
processed entry raises a `TypeError` (with no entries the callback never
runs and the empty record is returned, as in JS). -/
def preprocessFormData (entries : List (String × String)) (schema : ZodSchema) :
    Except String FormState :=
  match schema with
  | .zObject shape => processEntries entries shape []
  | _ =>
    match entries with
    | [] => .ok []
    | _ => .error "TypeError: schema has no shape"

/-! ## Document builder (createTRPCOpenApiDoc, index.ts lines 37–159) -/

/-- The four routing methods of `TRPCOpenApiMethod`. -/
inductive Method where
  | get
  | post
  | put
  | delete
  deriving DecidableEq, Repr

/-- The wire string of a method, as used for dictionary keys. -/
def Method.toStr : Method → String
  | .get => "get"
  | .post => "post"
  | .put => "put"
  | .delete => "delete"

/-- The `openapi` routing metadata attached to a procedure's `meta`. -/
structure OpenApiMeta where
  path : String
  method : Method
  deriving Repr

/-- A procedure registry entry (`procedure._def`): optional routing
metadata, the ordered `inputs` list whose entries may themselves be absent
(`inputs.at(0)` is read), and an optional output schema. -/
structure Procedure where
  meta : Option OpenApiMeta
  inputs : List (Option AnnSchema)
  output : Option AnnSchema
  deriving Repr

/-- The characters following the first `://` of an absolute URL. -/
def afterSchemeSep : List Char → Option (List Char)
  | ':' :: '/' :: '/' :: rest => some rest
  | _ :: rest => afterSchemeSep rest
  | [] => none

/-- The pathname read off the characters at the end of the URL authority:
a leading slash starts the path, which runs to a query or fragment
delimiter; anything else means the root path. -/
def pathOfRest (rest2 : List Char) : String :=
  match rest2 with
  | '/' :: _ => String.mk (rest2.takeWhile fun c => ¬(c = '?' ∨ c = '#'))
  | _ => "/"

/-- Pathname of an absolute URL, modelling the platform WHATWG `URL`
`pathname` getter for the http(s) URLs this repository receives: everything
from the first slash after the scheme-separator and authority up to a query
or fragment delimiter, defaulting to the root path. -/
def urlPathname (url : String) : String :=
  match afterSchemeSep url.data with
  | none => "/"
  | some rest =>
    pathOfRest (rest.dropWhile fun c => ¬(c = '/' ∨ c = '?' ∨ c = '#'))

/-- Platform `String.prototype.toLowerCase` on the ASCII method names this
repository handles. -/
def lowerStr (s : String) : String :=
  String.mk (s.data.map Char.toLower)

/-- Per-field encoding hints of a request-body media type (`explode` marks
repeated-field form encoding). -/
structure EncodingEntry where
  explode : Bool
  deriving DecidableEq, Repr

/-- A request-body media-type object: the declared schema and its encoding
dictionary. -/
structure MediaTypeModel where
  schema : Option AnnSchema := none
  encoding : List (String × EncodingEntry) := []
  deriving Repr

/-- A request body: content dictionary keyed by media type. -/
structure RequestBodyModel where
  content : List (String × MediaTypeModel)
  deriving Repr

/-- The zod-level path item recorded under `paths[path][method]`:
`requestBody` / `requestParams` (the query schema of a GET input) /
`responses` (the `result.data` envelope around the output, `none` for the
empty responses object). -/
structure OperationModel where
  requestBody : Option RequestBodyModel := none
  requestParams : Option AnnSchema := none
  responses : Option ZodSchema := none
  deriving Repr

/-- The accumulated build state: the zod-level path table, the
title-keyed component schema table, and the reverse lookup table
`openApiToTRPCPaths`. -/
structure BuildState where
  paths : List (String × List (String × OperationModel))
  schemas : List (String × AnnSchema)
  openApiToTRPCPaths : List (String × List (String × String))
  deriving Repr

/-- Register a processed schema in the component table when it declares a
zod-openapi title (lines 58–64 of index.ts). -/
def registerTitle (schemas : List (String × AnnSchema)) :
    Option AnnSchema → List (String × AnnSchema)
  | some a =>
    match a.zodOpenApi with
    | some info =>
      match info.title with
      | some t => setA schemas t a
      | none => schemas
    | none => schemas
  | none => schemas

/-- The multipart `encoding` reduce of lines 89–97: each top-level property
of the unwrapped input object whose unwrapped schema is array-kinded is
marked as exploded. -/
def buildEncoding (shape : List (String × ZodSchema)) :
    List (String × EncodingEntry) :=
  shape.foldl
    (fun acc kv =>
      if (unwrap kv.2).typeName = .ZodArray then setA acc kv.1 ⟨true⟩ else acc)
    []

/-- The `result.data` response envelope of lines 110–125. -/
def responseEnvelope (output : ZodSchema) : ZodSchema :=
  .zObject [("result", .zObject [("data", output)])]

/-- The request-body IIFE of lines 73–108: GET never builds a body; a
missing input yields an empty `application/json` placeholder; otherwise the
content is keyed by the declared content media type (default
`application/json`), with multipart object inputs getting per-property
encoding hints. -/
def buildRequestBody (method : Method) (input : Option AnnSchema) :
    Option RequestBodyModel :=
  match method with
  | .get => none
  | _ =>
    match input with
    | none => some ⟨[("application/json", ⟨none, []⟩)]⟩
    | some inp =>
      let inputContentType :=
        ((inp.zodOpenApi.bind fun io => io.contentMediaType).getD
          "application/json")
      let encoding :=
        match unwrap inp.schema with
        | .zObject shape =>
          if inputContentType = "multipart/form-data" then buildEncoding shape
          else []
        | _ => []
      some ⟨[(inputContentType, ⟨some inp, encoding⟩)]⟩

/-- The per-procedure operation derived at lines 66–133. -/
def buildOperation (method : Method) (input output : Option AnnSchema) :
    OperationModel where
  requestBody := buildRequestBody method input
  requestParams :=
    match method, input with
    | .get, some i => some i
    | _, _ => none
  responses := output.map fun o => responseEnvelope o.schema

/-- The loop body of `createTRPCOpenApiDoc` for one registry entry:
procedures without routing metadata are skipped; otherwise the processed
input/output are registered, the operation is recorded under
`paths[meta.path][meta.method]`, and the reverse lookup entry is recorded
under `basePathname + meta.path`. -/
def buildStep (url : String) (s : BuildState) (e : String × Procedure) :
    BuildState :=
  match e.2.meta with
  | none => s
  | some m =>
    let input := processProcedureSchema e.2.inputs.head?.join
    let output := processProcedureSchema e.2.output
    let schemas1 := registerTitle s.schemas input
    let schemas2 := registerTitle schemas1 output
    let op := buildOperation m.method input output
    ⟨set2 s.paths m.path m.method.toStr op,
      schemas2,
      set2 s.openApiToTRPCPaths (urlPathname url ++ m.path) m.method.toStr e.1⟩

/-- `createTRPCOpenApiDoc` up to (but not including) the external
`createDocument` assembler: the fold of `buildStep` over the registry in
iteration order, from empty tables.  The source contains no throw site; the
function is total and always returns its tables. -/
def createTRPCOpenApiDoc (registry : List (String × Procedure)) (url : String) :
    BuildState :=
  registry.foldl (buildStep url) ⟨[], [], []⟩

/-! ## Request handler (simpleTRPCOpenApiRequestHandler, lines 256–281) -/

/-- The inbound request as the handler reads it: the absolute request URL
(`opts.req.url`, parsed by the handler itself via `new URL`), its raw query
string and decoded query parameters in order, plus the HTTP method. -/
structure ReqModel where
  url : String
  search : String
  searchParams : List (String × String)
  method : String
  deriving Repr

/-- What the handler produces: either an early `Response` (status and
body), or a forwarded request to `fetchRequestHandler` described by its
rewritten pathname, query string and normalized method. -/
inductive HandlerOutcome where
  | response (status : Nat) (body : String)
  | forward (pathname : String) (search : String) (method : String)
  deriving Repr

/-- `simpleTRPCOpenApiRequestHandler`: resolve the procedure through the
reverse lookup table as `openApiToTRPCPaths[url.pathname]?.[method]` with
the lower-cased method, then apply the falsy guard `!trpcPath`
(lines 263–266).  The two-level read follows JS object semantics:

* an own miss at the outer level short-circuits `?.` to `undefined` only
  when the pathname is not an inherited `Object.prototype` key; a parsed
  http(s) URL pathname always starts with a slash (`urlPathname_head_slash`)
  so the inherited arm is unreachable from this handler, and is modelled as
  the TypeError such a truthy resolution would eventually raise;
* an own miss at the inner level yields `undefined` (404 via `!trpcPath`)
  unless the method names an inherited member — then `trpcPath` is the
  truthy inherited function, the guard passes, and the registry read
  `procedures[trpcPath]._def` at line 268 misses and throws a TypeError;
* an own hit with the empty-string procedure name is falsy, so `!trpcPath`
  returns the 404 response.

On a genuine hit, the procedure's raw first input schema (live registry
access, line 268) drives query coercion: when present, the query string is
rewritten to a single `input` parameter holding the JSON-serialized coerced
record; the pathname is rewritten to `endpoint/procedureName` and the
request forwarded with method `get` for GET and `post` otherwise.  A throw
(coercion error, or a registry miss raising a `TypeError`) is an
`Except.error`. -/
def simpleTRPCOpenApiRequestHandler (doc : BuildState)
    (registry : List (String × Procedure)) (endpoint : String) (req : ReqModel) :
    Except String HandlerOutcome :=
  let pathname := urlPathname req.url
  let method := lowerStr req.method
  match getA doc.openApiToTRPCPaths pathname with
  | none =>
    if isProtoKey pathname then .error "TypeError: cannot read _def of undefined"
    else .ok (.response 404 "Not found")
  | some inner =>
    match getA inner method with
    | none =>
      if isProtoKey method then .error "TypeError: cannot read _def of undefined"
      else .ok (.response 404 "Not found")
    | some trpcPath =>
      if trpcPath = "" then .ok (.response 404 "Not found")
      else
        match getA registry trpcPath with
        | none => .error "TypeError: cannot read _def of undefined"
        | some proc =>
          match proc.inputs.head?.join with
          | some input =>
            match preprocessFormData req.searchParams input.schema with
            | .error e => .error e
            | .ok parsed =>
              .ok (.forward (endpoint ++ "/" ++ trpcPath)
                ("?input=" ++ jsonStringify (.vObj parsed))
                (if method = "get" then "get" else "post"))
          | none =>
            .ok (.forward (endpoint ++ "/" ++ trpcPath) req.search
              (if method = "get" then "get" else "post"))

/-! ## Nullable-union sanitizer (index.ts lines 161–197)

The sanitizer runs over the OpenAPI 3.1 document produced by the external
`createDocument` assembler, so it is embedded over an OpenAPI-level
document model.  Only the narrow structure the pass inspects is modelled:
schema `type` members (a single type string or an array of type strings),
inline-versus-reference nodes, parameter `required` flags, per-path `get`
parameters and `post` request-body multipart properties. -/

/-- The `type` member of an OpenAPI schema object: a single type name or an
array of type names. -/
inductive SchemaType where
  | single (s : String)
  | multiple (ss : List String)
  deriving DecidableEq, Repr

/-- An OpenAPI schema node: a `$ref` reference object, or an inline schema
object with its optional `type` member and optional `properties`
dictionary. -/
inductive SchemaNode where
  | ref (r : String)
  | obj (type : Option SchemaType) (properties : Option (List (String × SchemaNode)))
  deriving Repr

/-- A (non-reference) parameter object: its `required` flag and schema. -/
structure ParameterObject where
  required : Option Bool := none
  schema : Option SchemaNode := none
  deriving Repr

/-- A parameter slot: a reference object or an inline parameter. -/
inductive ParamOrRef where
  | ref (r : String)
  | param (p : ParameterObject)
  deriving Repr

/-- A request-body media type object at the OpenAPI level. -/
structure MediaTypeObject where
  schema : Option SchemaNode := none
  deriving Repr

/-- A (non-reference) request body: its content dictionary. -/
structure RequestBodyObject where
  content : Option (List (String × MediaTypeObject)) := none
  deriving Repr

/-- A request-body slot: a reference object or an inline body. -/
inductive BodyOrRef where
  | ref (r : String)
  | body (b : RequestBodyObject)
  deriving Repr

/-- An operation: the members the sanitizer inspects. -/
structure OperationObject where
  parameters : Option (List ParamOrRef) := none
  requestBody : Option BodyOrRef := none
  deriving Repr

/-- A path item with its per-method operations; the sanitizer touches only
`get` parameters and `post` request bodies. -/
structure PathItem where
  get : Option OperationObject := none
  post : Option OperationObject := none
  put : Option OperationObject := none
  delete : Option OperationObject := none
  deriving Repr

/-- The rewrite `schema.type = filteredTypes.length === 1 ? filteredTypes[0]
: filteredTypes` of line 165: filter out every `"null"`, collapsing to a
single type when exactly one remains. -/
def stripNull (ss : List String) : SchemaType :=
  match ss.filter fun t => t ≠ "null" with
  | [t] => .single t
  | filteredTypes => .multiple filteredTypes

/-- `sanitizeSchema`'s mutation of `schema.type` (lines 163–165): when the
type is an array containing `"null"`, apply `stripNull`.  Also reports
whether the branch was taken (which drives `parameter.required = false`). -/
def sanitizeTypeStep : Option SchemaType → Option SchemaType × Bool
  | some (.multiple ss) =>
    if "null" ∈ ss then (some (stripNull ss), true)
    else (some (.multiple ss), false)
  | t => (t, false)

/-- `sanitizeSchema` applied to an inline schema node without a parameter
context (the multipart-property call): only the `type` member changes. -/
def sanitizeSchemaNode : SchemaNode → SchemaNode
  | .ref r => .ref r
  | .obj t props => .obj (sanitizeTypeStep t).1 props

/-- Sanitize one GET parameter slot (lines 177–182): inline parameters with
an inline schema get the type rewrite, and become not-required whenever a
`"null"` was stripped. -/
def sanitizeParam : ParamOrRef → ParamOrRef
  | .ref r => .ref r
  | .param p =>
    match p.schema with
    | some (.obj t props) =>
      let step := sanitizeTypeStep t
      .param ⟨if step.2 then some false else p.required,
        some (.obj step.1 props)⟩
    | _ => .param p

/-- Sanitize a POST request body (lines 185–196): the multipart media
type's inline schema, when it has a properties dictionary, gets every
inline property's type rewritten (required flags untouched). -/
def sanitizeBody : Option BodyOrRef → Option BodyOrRef
  | some (.body b) =>
    match b.content with
    | some content =>
      match getA content "multipart/form-data" with
      | some mt =>
        match mt.schema with
        | some (.obj t (some props)) =>
          some (.body ⟨some (setA content "multipart/form-data"
            ⟨some (.obj t (some (props.map fun kv =>
              (kv.1, sanitizeSchemaNode kv.2))))⟩)⟩)
        | _ => some (.body b)
      | none => some (.body b)
    | none => some (.body b)
  | b => b

/-- Sanitize a path item: GET parameters and the POST request body. -/
def sanitizePathItem (item : PathItem) : PathItem where
  get := item.get.map fun op =>
    ⟨op.parameters.map fun ps => ps.map sanitizeParam, op.requestBody⟩
  post := item.post.map fun op =>
    ⟨op.parameters, sanitizeBody op.requestBody⟩
  put := item.put
  delete := item.delete

/-- The whole sanitizer pass over `spec.paths`. -/
def sanitizePaths (paths : List (String × PathItem)) : List (String × PathItem) :=
  paths.map fun kv => (kv.1, sanitizePathItem kv.2)

/-! ## Concrete fixtures used by counterexamples and witnesses -/

/-- An input schema declaring the multipart content type. -/
def mpInput : AnnSchema :=
  ⟨.zObject [("file", .zString)], some ⟨none, some "multipart/form-data"⟩⟩

/-- A GET-routed procedure whose input declares multipart content: the
configuration the specification says must be rejected at build time. -/
def mpGetProc : Procedure := ⟨some ⟨"/upload", .get⟩, [some mpInput], none⟩

/-- A registry holding only the multipart-on-GET procedure. -/
def mpRegistry : List (String × Procedure) := [("upload", mpGetProc)]

/-- A minimal GET-routed procedure at sub-path `/x` with no input. -/
def xProc : Procedure := ⟨some ⟨"/x", .get⟩, [], none⟩

/-- A GET-routed procedure with a one-string-field input object. -/
def greetProc : Procedure :=
  ⟨some ⟨"/greet", .get⟩, [some ⟨.zObject [("name", .zString)], none⟩], none⟩

/-- The registry holding the greet procedure. -/
def greetRegistry : List (String × Procedure) := [("greet", greetProc)]

/-- The document artifact built from the greet registry. -/
def greetDoc : BuildState := createTRPCOpenApiDoc greetRegistry "https://h/api"

/-- A concrete inbound GET request for the greet procedure. -/
def greetReq : ReqModel :=
  ⟨"https://h/api/greet?name=Ada", "?name=Ada", [("name", "Ada")], "GET"⟩

/-- A registry entry with no routing metadata at all. -/
def noMetaProc : Procedure := ⟨none, [some ⟨.zString, none⟩], none⟩

/-! ## Dictionary lemmas -/

theorem getA_setA_self {α : Type} (l : List (String × α)) (k : String) (v : α) :
    getA (setA l k v) k = some v := by
  induction l with
  | nil => simp [getA, setA]
  | cons hd tl ih =>
    obtain ⟨k', v'⟩ := hd
    by_cases h : k' = k
    · simp [setA, h, getA]
    · simp [setA, h, getA, ih]

theorem getA_setA_ne {α : Type} (l : List (String × α)) (k k2 : String) (v : α)
    (h : k ≠ k2) : getA (setA l k v) k2 = getA l k2 := by
  induction l with
  | nil => simp [getA, setA, h]
  | cons hd tl ih =>
    obtain ⟨k', v'⟩ := hd
    by_cases h1 : k' = k
    · subst h1
      simp [setA, getA, h]
    · simp only [setA, if_neg h1, getA]
      by_cases h2 : k' = k2 <;> simp [h2, ih]

theorem setA_setA {α : Type} (l : List (String × α)) (k : String) (v w : α) :
    setA (setA l k v) k w = setA l k w := by
  induction l with
  | nil => simp [setA]
  | cons hd tl ih =>
    obtain ⟨k', v'⟩ := hd
    by_cases h : k' = k
    · simp [setA, h]
    · simp [setA, h, ih]

theorem lookup2_set2_self {α : Type} (t : List (String × List (String × α)))
    (k1 k2 : String) (v : α) : lookup2 (set2 t k1 k2 v) k1 k2 = some v := by
  simp [lookup2, set2, getA_setA_self]

theorem lookup2_set2_ne {α : Type} (t : List (String × List (String × α)))
    (k1 k2 c d : String) (v : α) (h : ¬(k1 = c ∧ k2 = d)) :
    lookup2 (set2 t k1 k2 v) c d = lookup2 t c d := by
  by_cases h1 : k1 = c
  · subst h1
    have h2 : k2 ≠ d := fun hd => h ⟨rfl, hd⟩
    simp only [lookup2, set2, getA_setA_self]
    rw [getA_setA_ne _ _ _ _ h2]
    cases hg : getA t k1 with
    | none => simp [getA]
    | some inner => simp

  · simp only [lookup2, set2]
    rw [getA_setA_ne _ _ _ _ h1]

theorem lookup2_set2_cases {α : Type} (t : List (String × List (String × α)))
    (k1 k2 p m : String) (v w : α)
    (h : lookup2 (set2 t k1 k2 v) p m = some w) :
    w = v ∨ lookup2 t p m = some w := by
  by_cases hc : k1 = p ∧ k2 = m
  · obtain ⟨rfl, rfl⟩ := hc
    rw [lookup2_set2_self] at h
    exact Or.inl (Option.some.inj h).symm
  · rw [lookup2_set2_ne _ _ _ _ _ _ hc] at h
    exact Or.inr h

/-! ## Schema introspection lemmas -/

theorem unwrap_not_wrapper (s : ZodSchema) (h : s.isWrapperKind = false) :
    unwrap s = s := by
  cases s <;> first
    | rfl
    | simp [ZodSchema.isWrapperKind] at h

theorem unwrap_size_le : ∀ s : ZodSchema, (unwrap s).size ≤ s.size
  | .zOptional inner => by
    have h := unwrap_size_le inner
    simp only [unwrap, ZodSchema.size]
    omega
  | .zNullable inner => by
    have h := unwrap_size_le inner
    simp only [unwrap, ZodSchema.size]
    omega
  | .zEffects inner => by
    have h := unwrap_size_le inner
    simp only [unwrap, ZodSchema.size]
    omega
  | .zString => le_refl _
  | .zNumber => le_refl _
  | .zBoolean => le_refl _
  | .zNull => le_refl _
  | .zVoid => le_refl _
  | .zObject _ => le_refl _
  | .zArray _ => le_refl _

/-- The fuel is an artifact of the embedding: any two sufficient fuel values
give the same result, so `coerceFormValue`'s choice of `schema.size + 1` is
canonical and the exhaustion arm is unreachable. -/
theorem coerceFuel_fuel_irrelevant : ∀ (f1 f2 : Nat) (key : Option String)
    (value : JsValue) (schema : ZodSchema) (data : FormState),
    schema.size < f1 → schema.size < f2 →
    coerceFuel f1 key value schema data = coerceFuel f2 key value schema data := by
  intro f1
  induction f1 with
  | zero =>
    intro f2 key value schema data h1 h2
    exact absurd h1 (Nat.not_lt_zero _)
  | succ n1 ih =>
    intro f2 key value schema data h1 h2
    cases f2 with
    | zero => exact absurd h2 (Nat.not_lt_zero _)
    | succ n2 =>
      cases schema with
      | zArray elem =>
        have hle := unwrap_size_le elem
        have hsz1 : (unwrap elem).size < n1 := by
          simp only [ZodSchema.size] at h1
          omega
        have hsz2 : (unwrap elem).size < n2 := by
          simp only [ZodSchema.size] at h2
          omega
        simp only [coerceFuel, ZodSchema.typeName, reduceCtorEq, if_false,
          reduceIte]
        cases key with
        | none => rfl
        | some k =>
          cases hg : getA data k with
          | none =>
            simp only [hg]
            by_cases hk : isProtoKey k
            · rw [if_pos hk, if_pos hk]
            · rw [if_neg hk, if_neg hk, ih n2 _ _ _ _ hsz1 hsz2]
          | some existing =>
            simp only [hg]
            by_cases ha : existing.isArr
            · rw [if_pos ha, if_pos ha, ih n2 _ _ _ _ hsz1 hsz2]
            · rw [if_neg ha, if_neg ha]
      | zString => rfl
      | zNumber => rfl
      | zBoolean => rfl
      | zNull => rfl
      | zVoid => rfl
      | zObject shape => rfl
      | zOptional inner => rfl
      | zNullable inner => rfl
      | zEffects inner => rfl

/-! ## Claim C4: unwrap reaches the leaf kind through any wrapper chain -/

/-- C4: for every schema built by wrapping a leaf schema of kind K in any
finite number of optional/nullable/effects wrappers in any order, `unwrap`
terminates and returns a schema whose discriminator kind is K (indeed the
leaf itself); and a schema whose kind is none of the three wrappers is
returned unchanged. -/
theorem unwrap_wrapChain_typeName (ws : List WrapperKind) (s : ZodSchema)
    (h : s.isWrapperKind = false) :
    (unwrap (wrapChain ws s)).typeName = s.typeName ∧ unwrap s = s := by
  have hu : unwrap s = s := unwrap_not_wrapper s h
  refine ⟨?_, hu⟩
  induction ws with
  | nil => simp [wrapChain, hu]
  | cons w ws ih =>
    cases w <;> simpa [wrapChain, applyWrapper, unwrap] using ih

/-- Witness for C4 at a concrete three-deep wrapper chain around a number
leaf. -/
theorem unwrap_wrapChain_typeName_witness :
    (ZodSchema.zNumber.isWrapperKind = false) ∧
    ((unwrap (wrapChain [.optional, .effects, .nullable] .zNumber)).typeName =
        ZodSchema.zNumber.typeName ∧ unwrap .zNumber = .zNumber) :=
  ⟨rfl, unwrap_wrapChain_typeName [.optional, .effects, .nullable] .zNumber rfl⟩

/-! ## Claim C5: concrete wire-text coercions -/

/-- C5: `preprocessFormData` coerces wire text per the declared property
kind: text `"42"` on a number field yields numeric 42; text `"false"` on a
boolean field yields boolean false; an array-typed field supplied twice with
`"1"` and `"2"` yields the ordered sequence [1, 2]. -/
theorem preprocessFormData_concrete_coercions :
    preprocessFormData [("n", "42")] (.zObject [("n", .zNumber)]) =
      .ok [("n", .vNum 42)] ∧
    preprocessFormData [("b", "false")] (.zObject [("b", .zBoolean)]) =
      .ok [("b", .vBool false)] ∧
    preprocessFormData [("a", "1"), ("a", "2")]
        (.zObject [("a", .zArray .zNumber)]) =
      .ok [("a", .vArr [.vNum 1, .vNum 2])] :=
  ⟨rfl, rfl, rfl⟩

/-! ## Claim C10: number-kind fields never throw; non-numeric text gives NaN -/

/-- C10: for a number-kind schema, `coerceFormValue` (hence
`preprocessFormData` on that field) never throws: it returns the platform
numeric cast of the (possibly JSON-parsed) wire value with the record
untouched; concretely, non-numeric text `"abc"` coerces to `NaN`. -/
theorem number_field_never_throws :
    (∀ (key : Option String) (value : JsValue) (schema : ZodSchema)
        (data : FormState), schema.typeName = .ZodNumber →
      coerceFormValue key value schema data =
        .ok (jsToNumber (parseIfString value), data)) ∧
    preprocessFormData [("x", "abc")] (.zObject [("x", .zNumber)]) =
      .ok [("x", .vNaN)] := by
  refine ⟨?_, rfl⟩
  intro key value schema data h
  simp [coerceFormValue, coerceFuel, h]

/-- Witness for C10 at a concrete number field and non-string input. -/
theorem number_field_never_throws_witness :
    coerceFormValue (some "n") (.vStr "7") .zNumber [] =
      .ok (jsToNumber (parseIfString (.vStr "7")), []) :=
  number_field_never_throws.1 (some "n") (.vStr "7") .zNumber [] rfl

/-! ## Claim C7: the coercion's throw sites -/

/-- Every error the fueled coercion can produce carries one of the two
source throw messages (the fuel-exhaustion arm reuses the first). -/
theorem coerceFuel_error_messages : ∀ (fuel : Nat) (key : Option String)
    (value : JsValue) (schema : ZodSchema) (data : FormState) (e : String),
    coerceFuel fuel key value schema data = .error e →
    e = "Nested arrays are not supported" ∨
      ∃ k, e = "Expected array for key " ++ k := by
  intro fuel
  induction fuel with
  | zero =>
    intro key value schema data e h
    simp only [coerceFuel, Except.error.injEq] at h
    exact Or.inl h.symm
  | succ n ih =>
    intro key value schema data e h
    cases schema with
    | zArray elem =>
      simp only [coerceFuel, ZodSchema.typeName, reduceCtorEq, if_false,
        reduceIte] at h
      cases key with
      | none =>
        simp only [Except.error.injEq] at h
        exact Or.inl h.symm
      | some k =>
        have pushCase : ∀ data1 : FormState,
            arrayPushResult k
              (coerceFuel n (some k) (parseIfString value) (unwrap elem) data1) =
              .error e →
            e = "Nested arrays are not supported" ∨
              ∃ k2, e = "Expected array for key " ++ k2 := by
          intro data1 hp
          unfold arrayPushResult at hp
          cases hr : coerceFuel n (some k) (parseIfString value) (unwrap elem)
              data1 with
          | error e2 =>
            rw [hr] at hp
            simp only [Except.error.injEq] at hp
            exact hp ▸ ih (some k) (parseIfString value) (unwrap elem) data1 e2 hr
          | ok p =>
            rw [hr] at hp
            obtain ⟨elemVal, data2⟩ := p
            cases hg2 : getA data2 k with
            | none =>
              simp only [hg2, Except.error.injEq] at hp
              exact Or.inr ⟨k, hp.symm⟩
            | some w =>
              cases w <;> simp only [hg2, Except.error.injEq,
                reduceCtorEq] at hp <;>
                exact Or.inr ⟨k, hp.symm⟩
        cases hg : getA data k with
        | none =>
          simp only [hg] at h
          by_cases hk : isProtoKey k
          · rw [if_pos hk] at h
            simp only [Except.error.injEq] at h
            exact Or.inr ⟨k, h.symm⟩
          · rw [if_neg hk] at h
            exact pushCase _ h
        | some existing =>
          simp only [hg] at h
          by_cases ha : existing.isArr
          · rw [if_pos ha] at h
            exact pushCase _ h
          · rw [if_neg ha] at h
            simp only [Except.error.injEq] at h
            exact Or.inr ⟨k, h.symm⟩
    | zNumber => simp [coerceFuel, ZodSchema.typeName] at h
    | zBoolean => simp [coerceFuel, ZodSchema.typeName] at h
    | zString => simp [coerceFuel, ZodSchema.typeName] at h
    | zNull => simp [coerceFuel, ZodSchema.typeName] at h
    | zVoid => simp [coerceFuel, ZodSchema.typeName] at h
    | zObject shape => simp [coerceFuel, ZodSchema.typeName] at h
    | zOptional inner => simp [coerceFuel, ZodSchema.typeName] at h
    | zNullable inner => simp [coerceFuel, ZodSchema.typeName] at h
    | zEffects inner => simp [coerceFuel, ZodSchema.typeName] at h

/-- Counterexample to C7: the coercion throws outside the claim's two
situations.  A declared array-typed property named `toString` throws the
expected-array error even though array coercion has a key context and the
accumulating record holds no value at all for that key (the inherited
`Object.prototype.toString` makes `data[key] !== undefined` true); and an
undeclared source key naming an inherited member throws a TypeError (a
third kind of throw) because `key in schema.shape` passes while the member
is not a schema. -/
theorem c7_counterexample_inherited_key_throws :
    (coerceFormValue (some "toString") (.vStr "1") (.zArray .zNumber) [] =
      .error ("Expected array for key " ++ "toString")) ∧
    getA ([] : FormState) "toString" = none ∧
    (preprocessFormData [("toString", "x")] (.zObject [("n", .zNumber)]) =
      .error "TypeError: cannot read typeName of undefined") :=
  ⟨rfl, rfl, rfl⟩

/-- C7 amended: the two declared situations throw as described and
`coerceFormValue`'s error messages are always one of the two source
strings, but keys resolving through the prototype chain add further throw
sites: a declared array-typed property whose name is an inherited
`Object.prototype` member key throws the expected-array error with the
record holding no own value for it, and an undeclared source key naming an
inherited member makes `processEntries` throw a TypeError during schema
introspection.  Non-array kinds never throw in `coerceFormValue` itself
(the record is left untouched), and a text value that fails the
opportunistic JSON parse falls back to the raw text without error on
passthrough kinds. -/
theorem coerce_error_characterization :
    (∀ (key : Option String) (value : JsValue) (schema : ZodSchema)
        (data : FormState) (e : String),
      coerceFormValue key value schema data = .error e →
      e = "Nested arrays are not supported" ∨
        ∃ k, e = "Expected array for key " ++ k) ∧
    (∀ (value : JsValue) (elem : ZodSchema) (data : FormState),
      coerceFormValue none value (.zArray elem) data =
        .error "Nested arrays are not supported") ∧
    (∀ (k : String) (value : JsValue) (elem : ZodSchema) (data : FormState)
        (w : JsValue), getA data k = some w → w.isArr = false →
      coerceFormValue (some k) value (.zArray elem) data =
        .error ("Expected array for key " ++ k)) ∧
    (∀ (k : String) (value : JsValue) (elem : ZodSchema) (data : FormState),
      getA data k = none → isProtoKey k = true →
      coerceFormValue (some k) value (.zArray elem) data =
        .error ("Expected array for key " ++ k)) ∧
    (∀ (k : String) (value : String) (rest : List (String × String))
        (shape : List (String × ZodSchema)) (data : FormState),
      getA shape k = none → isProtoKey k = true →
      processEntries ((k, value) :: rest) shape data =
        .error "TypeError: cannot read typeName of undefined") ∧
    (∀ (key : Option String) (value : JsValue) (schema : ZodSchema)
        (data : FormState), schema.typeName ≠ .ZodArray →
      ∃ v, coerceFormValue key value schema data = .ok (v, data)) ∧
    (∀ (key : Option String) (s : String) (schema : ZodSchema)
        (data : FormState), jsonParse s = none →
      schema.typeName ≠ .ZodArray → schema.typeName ≠ .ZodNumber →
      schema.typeName ≠ .ZodBoolean →
      coerceFormValue key (.vStr s) schema data = .ok (.vStr s, data)) := by
  refine ⟨?_, ?_, ?_, ?_, ?_, ?_, ?_⟩
  · intro key value schema data e h
    exact coerceFuel_error_messages _ key value schema data e h
  · intro value elem data
    rfl
  · intro k value elem data w hg ha
    simp [coerceFormValue, coerceFuel, ZodSchema.typeName, hg, ha]
  · intro k value elem data hg hk
    simp [coerceFormValue, coerceFuel, ZodSchema.typeName, hg, hk]
  · intro k value rest shape data hg hk
    simp [processEntries, hg, hk]
  · intro key value schema data h
    cases schema with
    | zArray elem => exact absurd rfl h
    | zNumber => exact ⟨jsToNumber (parseIfString value), rfl⟩
    | zBoolean =>
      exact ⟨.vBool ((parseIfString value).isStrTrue ||
        (parseIfString value).isBoolTrue), rfl⟩
    | zString => exact ⟨parseIfString value, rfl⟩
    | zNull => exact ⟨parseIfString value, rfl⟩
    | zVoid => exact ⟨parseIfString value, rfl⟩
    | zObject shape => exact ⟨parseIfString value, rfl⟩
    | zOptional inner => exact ⟨parseIfString value, rfl⟩
    | zNullable inner => exact ⟨parseIfString value, rfl⟩
    | zEffects inner => exact ⟨parseIfString value, rfl⟩
  · intro key s schema data hp harr hnum hbool
    cases schema with
    | zArray elem => exact absurd rfl harr
    | zNumber => exact absurd rfl hnum
    | zBoolean => exact absurd rfl hbool
    | zString =>
      simp [coerceFormValue, coerceFuel, parseIfString, ZodSchema.typeName, hp]
    | zNull =>
      simp [coerceFormValue, coerceFuel, parseIfString, ZodSchema.typeName, hp]
    | zVoid =>
      simp [coerceFormValue, coerceFuel, parseIfString, ZodSchema.typeName, hp]
    | zObject shape =>
      simp [coerceFormValue, coerceFuel, parseIfString, ZodSchema.typeName, hp]
    | zOptional inner =>
      simp [coerceFormValue, coerceFuel, parseIfString, ZodSchema.typeName, hp]
    | zNullable inner =>
      simp [coerceFormValue, coerceFuel, parseIfString, ZodSchema.typeName, hp]
    | zEffects inner =>
      simp [coerceFormValue, coerceFuel, parseIfString, ZodSchema.typeName, hp]

/-- Witness for the amended C7 at concrete inputs: a keyless array
coercion, a key already holding a non-array, an inherited-named declared
array key over the empty record, an undeclared inherited source key, a
never-throwing string field, and the raw-text fallback for unparsable
text. -/
theorem coerce_error_characterization_witness :
    (coerceFormValue none .vNull (.zArray .zNumber) [] =
      .error "Nested arrays are not supported") ∧
    (coerceFormValue (some "a") .vNull (.zArray .zNumber) [("a", .vStr "x")] =
      .error ("Expected array for key " ++ "a")) ∧
    ("Expected array for key " ++ "a" = "Nested arrays are not supported" ∨
      ∃ k, "Expected array for key " ++ "a" = "Expected array for key " ++ k) ∧
    (coerceFormValue (some "valueOf") .vNull (.zArray .zNumber) [] =
      .error ("Expected array for key " ++ "valueOf")) ∧
    (processEntries [("valueOf", "x")] [("n", .zNumber)] [] =
      .error "TypeError: cannot read typeName of undefined") ∧
    (∃ v, coerceFormValue (some "s") .vNull .zString [] = .ok (v, [])) ∧
    (coerceFormValue (some "s") (.vStr "abc") .zString [] =
      .ok (.vStr "abc", [])) :=
  ⟨coerce_error_characterization.2.1 .vNull .zNumber [],
    coerce_error_characterization.2.2.1 "a" .vNull .zNumber
      [("a", .vStr "x")] (.vStr "x") rfl rfl,
    coerce_error_characterization.1 (some "a") .vNull (.zArray .zNumber)
      [("a", .vStr "x")] ("Expected array for key " ++ "a")
      (coerce_error_characterization.2.2.1 "a" .vNull .zNumber
        [("a", .vStr "x")] (.vStr "x") rfl rfl),
    coerce_error_characterization.2.2.2.1 "valueOf" .vNull .zNumber []
      rfl rfl,
    coerce_error_characterization.2.2.2.2.1 "valueOf" "x" []
      [("n", .zNumber)] [] rfl rfl,
    coerce_error_characterization.2.2.2.2.2.1 (some "s") .vNull .zString []
      (by decide),
    coerce_error_characterization.2.2.2.2.2.2 (some "s") "abc" .zString []
      rfl (by decide) (by decide) (by decide)⟩

/-! ## Claim C1: multipart on a non-POST method

The source of `createTRPCOpenApiDoc` contains no throw site at all: for a
GET-routed procedure the request-body builder returns before the content
media type is ever consulted (lines 74–76 of index.ts), so declaring
`multipart/form-data` on a GET procedure is silently ignored and the
document is returned normally.  The claimed configuration error does not
exist in the code. -/

/-- Counterexample to C1: building the registry whose single procedure
declares `multipart/form-data` input with method `get` does not fail — it
returns the complete document, with the upload path present, the reverse
lookup entry recorded, and no request body on the GET operation. -/
theorem c1_counterexample_multipart_get_builds :
    createTRPCOpenApiDoc mpRegistry "https://h/api" =
      ⟨[("/upload", [("get", buildOperation .get (some mpInput) none)])], [],
        [("/api/upload", [("get", "upload")])]⟩ ∧
    lookup2 (createTRPCOpenApiDoc mpRegistry "https://h/api").openApiToTRPCPaths
      "/api/upload" "get" = some "upload" ∧
    (buildOperation Method.get (some mpInput) none).requestBody = none :=
  ⟨rfl, rfl, rfl⟩

/-- C1 amended: for a GET-routed procedure the build never consults the
declared content media type — no request body is produced at all, for every
input annotation — and the build completes normally (the embedding of
`createTRPCOpenApiDoc` is a total function, since its source contains no
throw statement). -/
theorem get_method_builds_no_request_body (method : Method)
    (input output : Option AnnSchema) (h : method = .get) :
    (buildOperation method input output).requestBody = none := by
  subst h
  rfl

/-- Witness for the amended C1 at the concrete multipart-on-GET input. -/
theorem get_method_builds_no_request_body_witness :
    (buildOperation Method.get (some mpInput) none).requestBody = none :=
  get_method_builds_no_request_body Method.get (some mpInput) none rfl

/-! ## Claim C2: build/lookup round trip -/

/-- A fold step over an entry that does not write the (k1, k2) reverse
lookup slot leaves that slot unchanged. -/
theorem lookup2_foldl_preserve (url : String) (l : List (String × Procedure))
    (k1 k2 : String)
    (h : ∀ e ∈ l, ∀ m : OpenApiMeta, (e.2).meta = some m →
      ¬(urlPathname url ++ m.path = k1 ∧ m.method.toStr = k2)) :
    ∀ s : BuildState,
      lookup2 (List.foldl (buildStep url) s l).openApiToTRPCPaths k1 k2 =
        lookup2 s.openApiToTRPCPaths k1 k2 := by
  induction l with
  | nil => intro s; rfl
  | cons e rest ih =>
    intro s
    rw [List.foldl_cons, ih (fun e' he' => h e' (List.mem_cons_of_mem _ he'))]
    cases hm : e.2.meta with
    | none => simp [buildStep, hm]
    | some m =>
      have hne := h e (List.mem_cons_self _ _) m hm
      simp only [buildStep, hm]
      exact lookup2_set2_ne _ _ _ _ _ _ hne

/-- Strings cancel on the left of append. -/
theorem string_append_cancel_left {s a b : String} (h : s ++ a = s ++ b) :
    a = b := by
  have hd := congrArg String.data h
  simp only [String.data_append] at hd
  exact String.ext (List.append_cancel_left hd)

/-- A method whose wire string is `"get"` is `get`. -/
theorem method_of_toStr_get (m : Method) (h : m.toStr = "get") : m = .get := by
  cases m with
  | get => rfl
  | post => exact absurd h (by decide)
  | put => exact absurd h (by decide)
  | delete => exact absurd h (by decide)

/-- C2: for a procedure P registered with routing metadata path `/x` and
method `get` under base URL `https://h/api`, provided no later entry
declares the same (path, method) metadata, the reverse lookup table maps the
base pathname concatenated with the sub-path — `/api/x` — and method `get`
back to P. -/
theorem c2_roundtrip (pre post : List (String × Procedure)) (P : String)
    (proc : Procedure) (hmeta : proc.meta = some ⟨"/x", .get⟩)
    (hpost : ∀ e ∈ post, ∀ m : OpenApiMeta, (e.2).meta = some m →
      ¬(m.path = "/x" ∧ m.method = .get)) :
    lookup2 (createTRPCOpenApiDoc (pre ++ (P, proc) :: post)
      "https://h/api").openApiToTRPCPaths "/api/x" "get" = some P := by
  unfold createTRPCOpenApiDoc
  rw [List.foldl_append, List.foldl_cons]
  rw [lookup2_foldl_preserve "https://h/api" post "/api/x" "get" ?_]
  · simp only [buildStep, hmeta]
    have hpath : urlPathname "https://h/api" ++ "/x" = "/api/x" := rfl
    rw [hpath]
    exact lookup2_set2_self _ _ _ _
  · intro e he m hm hc
    obtain ⟨hp, hmm⟩ := hc
    have hbase : urlPathname "https://h/api" = "/api" := rfl
    rw [hbase] at hp
    have hp2 : ("/api" : String) ++ m.path = "/api" ++ "/x" := hp
    exact hpost e he m hm
      ⟨string_append_cancel_left hp2, method_of_toStr_get m.method hmm⟩

/-- Witness for C2 at the singleton registry holding only P. -/
theorem c2_roundtrip_witness :
    lookup2 (createTRPCOpenApiDoc ([] ++ ("P", xProc) :: [])
      "https://h/api").openApiToTRPCPaths "/api/x" "get" = some "P" :=
  c2_roundtrip [] [] "P" xProc rfl (by intro e he; exact absurd he (by simp))

/-! ## Claim C9: procedures without routing metadata are skipped -/

/-- The fold never produces a reverse lookup entry naming n when every
registry entry named n lacks routing metadata. -/
theorem lookup_never_names_skipped (url : String)
    (l : List (String × Procedure)) (n : String)
    (hl : ∀ e ∈ l, e.1 = n → (e.2).meta = none) :
    ∀ s : BuildState,
      (∀ p m, lookup2 s.openApiToTRPCPaths p m ≠ some n) →
      ∀ p m, lookup2 (List.foldl (buildStep url) s l).openApiToTRPCPaths p m ≠
        some n := by
  induction l with
  | nil => intro s hs; exact hs
  | cons e rest ih =>
    intro s hs
    rw [List.foldl_cons]
    refine ih (fun e' he' => hl e' (List.mem_cons_of_mem _ he')) _ ?_
    intro p m hcontra
    cases hm : e.2.meta with
    | none =>
      simp only [buildStep, hm] at hcontra
      exact hs p m hcontra
    | some meta0 =>
      simp only [buildStep, hm] at hcontra
      rcases lookup2_set2_cases _ _ _ _ _ _ _ hcontra with h1 | h2
      · have : e.2.meta = none := hl e (List.mem_cons_self _ _) h1.symm
        rw [hm] at this
        exact Option.noConfusion this
      · exact hs p m h2

/-- C9: a registry entry with no routing metadata contributes nothing to the
build — erasing it leaves the generated path table, component table and
reverse lookup table unchanged — and, when every entry named n lacks
metadata, no reverse lookup slot ever maps to n. -/
theorem no_meta_procedures_skipped (pre post : List (String × Procedure))
    (n : String) (proc : Procedure) (url : String)
    (hall : ∀ q : Procedure, (n, q) ∈ pre ++ (n, proc) :: post →
      q.meta = none) :
    createTRPCOpenApiDoc (pre ++ (n, proc) :: post) url =
      createTRPCOpenApiDoc (pre ++ post) url ∧
    ∀ p m, lookup2 (createTRPCOpenApiDoc (pre ++ (n, proc) :: post)
      url).openApiToTRPCPaths p m ≠ some n := by
  have hmeta : proc.meta = none :=
    hall proc (List.mem_append_right _ (List.mem_cons_self _ _))
  constructor
  · unfold createTRPCOpenApiDoc
    rw [List.foldl_append, List.foldl_append, List.foldl_cons]
    have hskip : buildStep url (List.foldl (buildStep url) ⟨[], [], []⟩ pre)
        (n, proc) = List.foldl (buildStep url) ⟨[], [], []⟩ pre := by
      simp [buildStep, hmeta]
    rw [hskip]
  · unfold createTRPCOpenApiDoc
    refine lookup_never_names_skipped url _ n ?_ _ ?_
    · intro e he h1
      refine hall e.2 ?_
      have : e = (n, e.2) := by
        obtain ⟨e1, e2⟩ := e
        simp only at h1
        rw [h1]
      rw [← this]
      exact he
    · intro p m
      simp [lookup2, getA]

/-- Witness for C9 at a singleton registry whose only entry lacks
metadata. -/
theorem no_meta_procedures_skipped_witness :
    (createTRPCOpenApiDoc ([] ++ ("quiet", noMetaProc) :: []) "https://h/api" =
      createTRPCOpenApiDoc ([] ++ []) "https://h/api") ∧
    (lookup2 (createTRPCOpenApiDoc ([] ++ ("quiet", noMetaProc) :: [])
      "https://h/api").openApiToTRPCPaths "/api/q" "get" ≠ some "quiet") := by
  have h := no_meta_procedures_skipped [] [] "quiet" noMetaProc "https://h/api"
    (by intro q hq; simp at hq; rw [hq]; rfl)
  exact ⟨h.1, h.2 "/api/q" "get"⟩

/-! ## URL pathnames never collide with inherited keys -/

/-- The authority tail always produces a slash-led pathname. -/
theorem pathOfRest_head_slash (l : List Char) :
    (pathOfRest l).data.head? = some '/' := by
  unfold pathOfRest
  split
  · simp [List.takeWhile]
  · rfl

/-- A parsed http(s) URL pathname always starts with a slash. -/
theorem urlPathname_head_slash (u : String) :
    (urlPathname u).data.head? = some '/' := by
  unfold urlPathname
  cases afterSchemeSep u.data with
  | none => rfl
  | some rest => exact pathOfRest_head_slash _

/-- No `Object.prototype` member key starts with a slash. -/
theorem isProtoKey_eq_false_of_head_slash (k : String)
    (h : k.data.head? = some '/') : isProtoKey k = false := by
  unfold isProtoKey
  split <;> first
    | rfl
    | exact absurd h (by decide)

/-- The handler's outer table read never surfaces an inherited member. -/
theorem urlPathname_not_protoKey (u : String) :
    isProtoKey (urlPathname u) = false :=
  isProtoKey_eq_false_of_head_slash _ (urlPathname_head_slash u)

/-! ## Claim C6: routing miss and the prototype chain

The claim asserts that every (pathname, lower-cased method) pair absent
from the reverse lookup table yields the 404 response and never a thrown
error.  That is false: at a registered pathname, a method naming an
inherited `Object.prototype` member (for example `CONSTRUCTOR`,
lower-cased to `constructor`) makes `openApiToTRPCPaths[path][method]`
resolve to the truthy inherited member, the `!trpcPath` guard passes, and
the registry read at line 268 throws a TypeError even though the pair is
absent from the table as data. -/

/-- Counterexample to C6: the pair (`/api/greet`, `constructor`) is absent
from the greet document's reverse lookup table, yet the handler throws a
TypeError instead of returning the 404 response. -/
theorem c6_counterexample_inherited_method_throws :
    lookup2 greetDoc.openApiToTRPCPaths (urlPathname "https://h/api/greet")
      (lowerStr "CONSTRUCTOR") = none ∧
    simpleTRPCOpenApiRequestHandler greetDoc greetRegistry "/internal"
      ⟨"https://h/api/greet", "", [], "CONSTRUCTOR"⟩ =
      .error "TypeError: cannot read _def of undefined" :=
  ⟨rfl, rfl⟩

/-- C6 amended: an inbound request whose (pathname, lower-cased method)
pair is absent from the reverse lookup table produces the 404 `Not found`
response as a normal return value — no `forward` outcome and no error —
provided the lower-cased method does not name an inherited
`Object.prototype` member (the pathname side needs no such proviso: parsed
URL pathnames start with a slash and never collide with inherited keys). -/
theorem routing_miss_404 (doc : BuildState)
    (registry : List (String × Procedure)) (endpoint : String) (req : ReqModel)
    (h : lookup2 doc.openApiToTRPCPaths (urlPathname req.url)
      (lowerStr req.method) = none)
    (hm : isProtoKey (lowerStr req.method) = false) :
    simpleTRPCOpenApiRequestHandler doc registry endpoint req =
      .ok (.response 404 "Not found") := by
  unfold simpleTRPCOpenApiRequestHandler
  cases hg : getA doc.openApiToTRPCPaths (urlPathname req.url) with
  | none => simp [hg, urlPathname_not_protoKey]
  | some inner =>
    have hi : getA inner (lowerStr req.method) = none := by
      simp only [lookup2, hg] at h
      exact h
    simp [hg, hi, hm]

/-- Witness for the amended C6: a GET request for an unregistered path
against the greet document. -/
theorem routing_miss_404_witness :
    simpleTRPCOpenApiRequestHandler greetDoc greetRegistry "/internal"
      ⟨"https://h/api/nope", "", [], "GET"⟩ = .ok (.response 404 "Not found") :=
  routing_miss_404 greetDoc greetRegistry "/internal"
    ⟨"https://h/api/nope", "", [], "GET"⟩ rfl rfl

/-! ## Claim C3: request rewriting on a lookup hit with an input schema -/

/-- C3: when an inbound request resolves through the reverse lookup table
to a (non-falsy) procedure name and the resolved procedure declares an
input schema whose query coercion succeeds, the handler rewrites the query
string to exactly the single `input` parameter carrying the JSON-serialized
coerced record, rewrites the path to `endpoint/procedureName`, and forwards
with method `get` for an original GET and `post` for every other method.
(The coercion-success hypothesis is faithful: `preprocessFormData` now
throws on inherited-named extra query keys, so such requests fail it and
are not claimed to forward; `trpcPath ≠ ""` mirrors the source's own
`!trpcPath` resolution guard.) -/
theorem handler_rewrites_forwarded_request (doc : BuildState)
    (registry : List (String × Procedure)) (endpoint : String) (req : ReqModel)
    (trpcPath : String) (proc : Procedure) (a : AnnSchema) (d : FormState)
    (hlook : lookup2 doc.openApiToTRPCPaths (urlPathname req.url)
      (lowerStr req.method) = some trpcPath)
    (hne : trpcPath ≠ "")
    (hproc : getA registry trpcPath = some proc)
    (hinput : proc.inputs.head?.join = some a)
    (hpre : preprocessFormData req.searchParams a.schema = .ok d) :
    simpleTRPCOpenApiRequestHandler doc registry endpoint req =
      .ok (.forward (endpoint ++ "/" ++ trpcPath)
        ("?input=" ++ jsonStringify (.vObj d))
        (if lowerStr req.method = "get" then "get" else "post")) := by
  have hinput2 : (proc.inputs.head?.bind fun x => x) = some a := hinput
  unfold simpleTRPCOpenApiRequestHandler
  cases hg : getA doc.openApiToTRPCPaths (urlPathname req.url) with
  | none =>
    simp only [lookup2, hg] at hlook
    exact Option.noConfusion hlook
  | some inner =>
    have hi : getA inner (lowerStr req.method) = some trpcPath := by
      simp only [lookup2, hg] at hlook
      exact hlook
    simp [hg, hi, hne, hproc, hinput2, hpre]

/-- Witness for C3: the end-to-end greet request `GET /api/greet?name=Ada`
forwarded as `GET /internal/greet?input=...`. -/
theorem handler_rewrites_forwarded_request_witness :
    simpleTRPCOpenApiRequestHandler greetDoc greetRegistry "/internal"
      greetReq =
      .ok (.forward ("/internal" ++ "/" ++ "greet")
        ("?input=" ++ jsonStringify (.vObj [("name", .vStr "Ada")]))
        (if lowerStr "GET" = "get" then "get" else "post")) :=
  handler_rewrites_forwarded_request greetDoc greetRegistry "/internal"
    greetReq "greet" greetProc ⟨.zObject [("name", .zString)], none⟩
    [("name", .vStr "Ada")] rfl (by decide) rfl rfl rfl

/-! ## Claim C8: the nullable-union sanitizer is idempotent -/

/-- The null marker never survives the filter. -/
theorem null_not_mem_filtered (ss : List String) :
    "null" ∉ ss.filter fun t => t ≠ "null" := by
  simp [List.mem_filter]

/-- One type rewrite is enough: a second `sanitizeTypeStep` neither changes
the type nor reports a strip. -/
theorem sanitizeTypeStep_idem (t : Option SchemaType) :
    sanitizeTypeStep (sanitizeTypeStep t).1 = ((sanitizeTypeStep t).1, false) := by
  match t with
  | none => rfl
  | some (.single s) => rfl
  | some (.multiple ss) =>
    by_cases h : "null" ∈ ss
    · simp only [sanitizeTypeStep, if_pos h]
      unfold stripNull
      have hnot := null_not_mem_filtered ss
      cases hf : ss.filter fun t => t ≠ "null" with
      | nil => simp [sanitizeTypeStep]
      | cons t1 rest =>
        rw [hf] at hnot
        cases rest with
        | nil => rfl
        | cons t2 rest2 =>
          simp [sanitizeTypeStep, hnot]
    · simp [sanitizeTypeStep, h]

theorem sanitizeSchemaNode_idem (node : SchemaNode) :
    sanitizeSchemaNode (sanitizeSchemaNode node) = sanitizeSchemaNode node := by
  cases node with
  | ref r => rfl
  | obj t props => simp [sanitizeSchemaNode, sanitizeTypeStep_idem]

theorem sanitizeParam_idem (p : ParamOrRef) :
    sanitizeParam (sanitizeParam p) = sanitizeParam p := by
  cases p with
  | ref r => rfl
  | param pObj =>
    cases hs : pObj.schema with
    | none => simp [sanitizeParam, hs]
    | some node =>
      cases node with
      | ref r => simp [sanitizeParam, hs]
      | obj t props => simp [sanitizeParam, hs, sanitizeTypeStep_idem]

theorem map_sanitizeParam_idem (ps : List ParamOrRef) :
    (ps.map sanitizeParam).map sanitizeParam = ps.map sanitizeParam := by
  induction ps with
  | nil => rfl
  | cons p rest ih => simp [sanitizeParam_idem, ih]

theorem map_sanitizeProps_idem (props : List (String × SchemaNode)) :
    (props.map ((fun kv => (kv.1, sanitizeSchemaNode kv.2)) ∘
      fun kv : String × SchemaNode => (kv.1, sanitizeSchemaNode kv.2))) =
      props.map fun kv => (kv.1, sanitizeSchemaNode kv.2) := by
  induction props with
  | nil => rfl
  | cons kv rest ih => simp [Function.comp, sanitizeSchemaNode_idem, ih]

theorem sanitizeBody_idem (b : Option BodyOrRef) :
    sanitizeBody (sanitizeBody b) = sanitizeBody b := by
  match b with
  | none => rfl
  | some (.ref r) => rfl
  | some (.body bo) =>
    cases hc : bo.content with
    | none => simp [sanitizeBody, hc]
    | some content =>
      cases hg : getA content "multipart/form-data" with
      | none => simp [sanitizeBody, hc, hg]
      | some mt =>
        cases hms : mt.schema with
        | none => simp [sanitizeBody, hc, hg, hms]
        | some node =>
          cases node with
          | ref r => simp [sanitizeBody, hc, hg, hms]
          | obj t props =>
            cases props with
            | none => simp [sanitizeBody, hc, hg, hms]
            | some propList =>
              simp [sanitizeBody, hc, hg, hms, getA_setA_self, setA_setA,
                map_sanitizeProps_idem]

theorem sanitizePathItem_idem (item : PathItem) :
    sanitizePathItem (sanitizePathItem item) = sanitizePathItem item := by
  cases item with
  | mk g p pu de =>
    unfold sanitizePathItem
    congr 1
    · cases g with
      | none => rfl
      | some op =>
        cases hps : op.parameters with
        | none => simp [hps]
        | some ps =>
          simp [hps]
          intro a ha
          exact sanitizeParam_idem a
    · cases p with
      | none => rfl
      | some op => simp [sanitizeBody_idem]

/-- C8: the nullable-union sanitizer pass is idempotent — applying it to an
already-sanitized paths table changes nothing (no further type-array or
required-flag changes). -/
theorem sanitizePaths_idempotent (paths : List (String × PathItem)) :
    sanitizePaths (sanitizePaths paths) = sanitizePaths paths := by
  unfold sanitizePaths
  induction paths with
  | nil => rfl
  | cons kv rest ih =>
    simp only [List.map_cons, List.cons.injEq]
    exact ⟨by rw [sanitizePathItem_idem], by simpa using ih⟩

end SimpleTRPCOpenApi
